import Mathlib

/-!
Verification of the log-aggregation core of the `llm-usage` utility.

The Go source is shallowly embedded: each per-provider file scanner becomes a
pure Lean function over the list of decode results of the file's lines.  A
"line" is modelled as the outcome of `json.Unmarshal` (plus, where the code
parses it, the timestamp parse): malformed lines and absent optional fields are
explicit constructors, so every branch of the Go code has a counterpart here.
Go `int` fields are modelled as `Int` (no claim exercises 64-bit overflow);
`time.Time` instants are modelled as `Int` with `Before` becoming `<`;
`time.Time.Day()` (day-of-month in the ambient location, computed by the Go
standard library) is passed in as an explicit function `day : Int → Nat`.
-/

namespace LlmUsage

/-- `TokenStats` from jsonl.go: the four token counters. -/
structure TokenStats where
  InputTokens   : Int
  OutputTokens  : Int
  CacheCreation : Int
  CacheRead     : Int
deriving Repr, DecidableEq

/-- The zero value `var stats TokenStats`. -/
def TokenStats.zero : TokenStats := ⟨0, 0, 0, 0⟩

/-- `func (t TokenStats) Total() int`. -/
def TokenStats.Total (t : TokenStats) : Int :=
  t.InputTokens + t.OutputTokens + t.CacheCreation + t.CacheRead

/-- Component-wise merge of two `TokenStats`, as written out in
`scanAllTokens` (and repeated in `scanAllTokensByDay`). -/
def TokenStats.merge (a b : TokenStats) : TokenStats :=
  ⟨a.InputTokens + b.InputTokens,
   a.OutputTokens + b.OutputTokens,
   a.CacheCreation + b.CacheCreation,
   a.CacheRead + b.CacheRead⟩

/-- All four counters non-negative (the spec's validity condition). -/
def TokenStats.Nonneg (t : TokenStats) : Prop :=
  0 ≤ t.InputTokens ∧ 0 ≤ t.OutputTokens ∧ 0 ≤ t.CacheCreation ∧ 0 ≤ t.CacheRead

instance (t : TokenStats) : Decidable t.Nonneg := by
  unfold TokenStats.Nonneg; infer_instance

/-- `DailyTokenStats` (day-of-month → stats).  The Go `map[int]TokenStats`
reads the zero value at an absent key, so it is modelled extensionally as a
total function defaulting to zero. -/
abbrev DailyTokenStats := Nat → TokenStats

/-- The empty daily map `make(DailyTokenStats)`. -/
def emptyDaily : DailyTokenStats := fun _ => TokenStats.zero

/-! ## Claude (provider A) log lines

`jsonlEntry` from model.go, with the `Message.ID` field that
`scanClaudeFileTokens` reads via `entry.Message.ID` (tagged `message.id` in
the log schema).  `timestamp` is the result of
`time.Parse(time.RFC3339Nano, entry.Timestamp)`: `none` models a parse
error, `some t` a successful parse to the instant `t`. -/

/-- Integer usage payload at `message.usage`; absent numeric fields decode
to the zero value, so any concrete line simply carries zeros there. -/
structure ClaudeUsage where
  input_tokens : Int
  output_tokens : Int
  cache_creation_input_tokens : Int
  cache_read_input_tokens : Int
deriving Repr, DecidableEq

/-- The `message` object: id (empty string when absent) and optional usage. -/
structure ClaudeMessage where
  id : String
  usage : Option ClaudeUsage
deriving Repr, DecidableEq

/-- One successfully unmarshalled Claude JSONL entry. -/
structure ClaudeEntry where
  type : String
  timestamp : Option Int
  message : Option ClaudeMessage
deriving Repr, DecidableEq

/-- One raw line: `malformed` models a `json.Unmarshal` failure (including
an empty line). -/
inductive ClaudeLine
  | malformed
  | entry (e : ClaudeEntry)
deriving Repr, DecidableEq

/-- The per-line filter of `scanClaudeFileTokens`: returns the message id and
usage of a countable line, `none` when the loop body hits a `continue`
(unmarshal failure, wrong type, missing message/usage, timestamp parse
failure, or timestamp before the window start). -/
def claudeDecode (since : Int) : ClaudeLine → Option (String × ClaudeUsage)
  | .malformed => none
  | .entry e =>
    if e.type ≠ "assistant" then none
    else match e.message with
      | none => none
      | some m =>
        match m.usage with
        | none => none
        | some u =>
          match e.timestamp with
          | none => none
          | some ts => if ts < since then none else some (m.id, u)

/-- Assignment `seen[id] = u` on the Go map, modelled as in-place update of
an association list (map iteration order is immaterial below because the
final step sums the values). -/
def mapAssign (l : List (String × ClaudeUsage)) (k : String) (v : ClaudeUsage) :
    List (String × ClaudeUsage) :=
  match l with
  | [] => [(k, v)]
  | (k', v') :: rest =>
    if k' = k then (k, v) :: rest else (k', v') :: mapAssign rest k v

/-- One iteration of the scan loop of `scanClaudeFileTokens`: the state is
(`seen` map, `anonymous` slice). -/
def claudeStep (since : Int)
    (acc : List (String × ClaudeUsage) × List ClaudeUsage) (l : ClaudeLine) :
    List (String × ClaudeUsage) × List ClaudeUsage :=
  match claudeDecode since l with
  | none => acc
  | some (id, u) =>
    if id = "" then (acc.1, acc.2 ++ [u]) else (mapAssign acc.1 id u, acc.2)

/-- The final accumulation `stats.InputTokens += u.in` etc. -/
def addClaudeUsage (s : TokenStats) (u : ClaudeUsage) : TokenStats :=
  ⟨s.InputTokens + u.input_tokens,
   s.OutputTokens + u.output_tokens,
   s.CacheCreation + u.cache_creation_input_tokens,
   s.CacheRead + u.cache_read_input_tokens⟩

/-- The two final `for ... range` loops of `scanClaudeFileTokens`: every
kept usage (deduplicated map values, then anonymous records) is added onto
`stats`. -/
def claudeFinish (acc : List (String × ClaudeUsage) × List ClaudeUsage)
    (stats : TokenStats) : TokenStats :=
  (acc.1.map Prod.snd ++ acc.2).foldl addClaudeUsage stats

/-- `scanClaudeFileTokens(path, since, stats *TokenStats)`: dedup by message
id (last line wins), anonymous records all retained, then every kept usage
is added onto `stats`. -/
def scanClaudeFileTokens (since : Int) (lines : List ClaudeLine)
    (stats : TokenStats) : TokenStats :=
  claudeFinish (lines.foldl (claudeStep since) ([], [])) stats

/-- Per-line filter of `scanClaudeFileTokensByDay`: same checks plus the
exclusive upper bound `!ts.Before(until)`; a kept record carries
`ts.Day()`. -/
def claudeDecodeByDay (since untilT : Int) (day : Int → Nat) :
    ClaudeLine → Option (String × ClaudeUsage × Nat)
  | .malformed => none
  | .entry e =>
    if e.type ≠ "assistant" then none
    else match e.message with
      | none => none
      | some m =>
        match m.usage with
        | none => none
        | some u =>
          match e.timestamp with
          | none => none
          | some ts =>
            if ts < since ∨ ¬ ts < untilT then none
            else some (m.id, u, day ts)

/-- Map assignment for the day-bucketed `seen` map. -/
def mapAssignDay : List (String × ClaudeUsage × Nat) → String → ClaudeUsage × Nat →
    List (String × ClaudeUsage × Nat)
  | [], k, v => [(k, v)]
  | (k', v') :: rest, k, v =>
    if k' = k then (k, v) :: rest else (k', v') :: mapAssignDay rest k v

/-- Loop state update of `scanClaudeFileTokensByDay`. -/
def claudeStepByDay (since untilT : Int) (day : Int → Nat)
    (acc : List (String × ClaudeUsage × Nat) × List (ClaudeUsage × Nat))
    (l : ClaudeLine) :
    List (String × ClaudeUsage × Nat) × List (ClaudeUsage × Nat) :=
  match claudeDecodeByDay since untilT day l with
  | none => acc
  | some (id, u, d) =>
    if id = "" then (acc.1, acc.2 ++ [(u, d)])
    else (mapAssignDay acc.1 id (u, d), acc.2)

/-- The closure `add` in `scanClaudeFileTokensByDay`:
`s := daily[u.day]; s += u; daily[u.day] = s`. -/
def dailyAddClaude (daily : DailyTokenStats) (p : ClaudeUsage × Nat) :
    DailyTokenStats :=
  fun d' => if d' = p.2 then addClaudeUsage (daily p.2) p.1 else daily d'

/-- The two final loops of `scanClaudeFileTokensByDay`. -/
def claudeFinishByDay
    (acc : List (String × ClaudeUsage × Nat) × List (ClaudeUsage × Nat))
    (daily : DailyTokenStats) : DailyTokenStats :=
  (acc.1.map Prod.snd ++ acc.2).foldl dailyAddClaude daily

/-- `scanClaudeFileTokensByDay(path, since, until, daily)`. -/
def scanClaudeFileTokensByDay (since untilT : Int) (day : Int → Nat)
    (lines : List ClaudeLine) (daily : DailyTokenStats) : DailyTokenStats :=
  claudeFinishByDay (lines.foldl (claudeStepByDay since untilT day) ([], []))
    daily

/-! ## Codex (provider B) log lines

`codexJSONLEntry` keeps its timestamp as a string and parses it lazily, so
the timestamp field is modelled as the three possible outcomes: the empty
string, a non-empty string that fails `time.Parse(time.RFC3339Nano, ·)`, or
a successful parse. -/

/-- Outcome of the lazily parsed `timestamp` string field. -/
inductive TsField
  | empty
  | bad
  | ok (t : Int)
deriving Repr, DecidableEq

/-- `codexTokenUsage`: the `payload.info.total_token_usage` object. -/
structure CodexTokenUsage where
  input_tokens : Int
  cached_input_tokens : Int
  output_tokens : Int
  reasoning_output_tokens : Int
  total_tokens : Int
deriving Repr, DecidableEq

/-- `codexTokenInfo`: the `payload.info` object. -/
structure CodexTokenInfo where
  total_token_usage : Option CodexTokenUsage
deriving Repr, DecidableEq

/-- `codexTokenPayload`: result of the second unmarshal of the raw payload. -/
structure CodexTokenPayload where
  type : String
  info : Option CodexTokenInfo
deriving Repr, DecidableEq

/-- The raw `payload` field: present but failing the second unmarshal, or
successfully unmarshalled. -/
inductive CodexPayloadField
  | malformed
  | parsed (p : CodexTokenPayload)
deriving Repr, DecidableEq

/-- One successfully unmarshalled `codexJSONLEntry`. -/
structure CodexEntry where
  timestamp : TsField
  type : String
  payload : Option CodexPayloadField
deriving Repr, DecidableEq

/-- One raw Codex line. -/
inductive CodexLine
  | malformed
  | entry (e : CodexEntry)
deriving Repr, DecidableEq

/-- The scan-loop filter of `scanCodexFileTokens`: a qualifying line (type
`event_msg`, payload type `token_count`, non-nil info and usage) yields
`(payload.Info, entry.Timestamp)`; every `continue` yields `none`. -/
def codexQualify : CodexLine → Option (CodexTokenInfo × TsField)
  | .malformed => none
  | .entry e =>
    if e.type ≠ "event_msg" then none
    else match e.payload with
      | none => none
      | some .malformed => none
      | some (.parsed p) =>
        if p.type ≠ "token_count" then none
        else match p.info with
          | none => none
          | some info =>
            match info.total_token_usage with
            | none => none
            | some _ => some (info, e.timestamp)

/-- One loop iteration of `scanCodexFileTokens`: a qualifying line
overwrites `lastInfo`/`lastTimestamp`. -/
def codexKeepLast (acc : Option (CodexTokenInfo × TsField)) (l : CodexLine) :
    Option (CodexTokenInfo × TsField) :=
  match codexQualify l with
  | some r => some r
  | none => acc

/-- The loop of `scanCodexFileTokens` keeps `lastInfo`/`lastTimestamp` of
the last qualifying entry. -/
def codexLast (lines : List CodexLine) : Option (CodexTokenInfo × TsField) :=
  lines.foldl codexKeepLast none

/-- The post-loop window check of `scanCodexFileTokens`: the timestamp is
checked against the window only when non-empty and parseable (`if
lastTimestamp != "" { ts, err := parse; if err == nil && ts.Before(since)
{ return } }`). -/
def codexWindowSkip (since : Int) : TsField → Prop
  | .empty => False
  | .bad => False
  | .ok t => t < since

instance (since : Int) (tsf : TsField) : Decidable (codexWindowSkip since tsf) := by
  cases tsf <;> (unfold codexWindowSkip; infer_instance)

/-- The final accumulation of `scanCodexFileTokens`: non-cached input is
`input_tokens − cached_input_tokens` clamped at zero; CacheCreation is
never touched. -/
def codexApplyUsage (stats : TokenStats) (tu : CodexTokenUsage) : TokenStats :=
  ⟨stats.InputTokens +
     (if tu.input_tokens - tu.cached_input_tokens < 0 then 0
      else tu.input_tokens - tu.cached_input_tokens),
   stats.OutputTokens + tu.output_tokens,
   stats.CacheCreation,
   stats.CacheRead + tu.cached_input_tokens⟩

/-- `scanCodexFileTokens(path, since, stats *TokenStats)`: the last
qualifying entry's snapshot is the whole file's contribution. -/
def scanCodexFileTokens (since : Int) (lines : List CodexLine)
    (stats : TokenStats) : TokenStats :=
  match codexLast lines with
  | none => stats
  | some (info, tsf) =>
    if codexWindowSkip since tsf then stats
    else match info.total_token_usage with
      | none => stats
      | some tu => codexApplyUsage stats tu

/-- Loop filter of `scanCodexFileTokensByDay`: same qualification, but a
line whose timestamp fails to parse is skipped (`continue`), so a kept
record carries a parsed instant. -/
def codexQualifyByDay : CodexLine → Option (CodexTokenInfo × Int)
  | .malformed => none
  | .entry e =>
    if e.type ≠ "event_msg" then none
    else match e.payload with
      | none => none
      | some .malformed => none
      | some (.parsed p) =>
        if p.type ≠ "token_count" then none
        else match p.info with
          | none => none
          | some info =>
            match info.total_token_usage with
            | none => none
            | some _ =>
              match e.timestamp with
              | .empty => none
              | .bad => none
              | .ok t => some (info, t)

/-- One loop iteration of `scanCodexFileTokensByDay`. -/
def codexKeepLastByDay (acc : Option (CodexTokenInfo × Int)) (l : CodexLine) :
    Option (CodexTokenInfo × Int) :=
  match codexQualifyByDay l with
  | some r => some r
  | none => acc

/-- `lastInfo`/`lastTS` kept by the loop of `scanCodexFileTokensByDay`. -/
def codexLastByDay (lines : List CodexLine) : Option (CodexTokenInfo × Int) :=
  lines.foldl codexKeepLastByDay none

/-- `scanCodexFileTokensByDay(path, since, until, daily)`: the window check
`lastTS.Before(since) || !lastTS.Before(until)` is applied only to the final
`lastTS`, after the loop. -/
def scanCodexFileTokensByDay (since untilT : Int) (day : Int → Nat)
    (lines : List CodexLine) (daily : DailyTokenStats) : DailyTokenStats :=
  match codexLastByDay lines with
  | none => daily
  | some (info, lastTS) =>
    if lastTS < since ∨ ¬ lastTS < untilT then daily
    else match info.total_token_usage with
      | none => daily
      | some tu =>
        fun d' =>
          if d' = day lastTS then
            ⟨(daily (day lastTS)).InputTokens +
               (if tu.input_tokens - tu.cached_input_tokens < 0 then 0
                else tu.input_tokens - tu.cached_input_tokens),
             (daily (day lastTS)).OutputTokens + tu.output_tokens,
             (daily (day lastTS)).CacheCreation,
             (daily (day lastTS)).CacheRead + tu.cached_input_tokens⟩
          else daily d'

/-! ## Kimi (provider C) log lines

`kimiWireEntry.Timestamp` is a Unix-epoch float64; the claims below never
exercise float rounding, so the instant it converts to (via `time.Unix`) is
modelled directly as an `Int`, with the guard `entry.Timestamp > 0` becoming
`0 < t`. -/

/-- `kimiTokenUsage`: the `message.payload.token_usage` object. -/
structure KimiTokenUsage where
  input_other : Int
  output : Int
  input_cache_read : Int
  input_cache_creation : Int
deriving Repr, DecidableEq

/-- The nested `message.payload` object. -/
structure KimiPayload where
  token_usage : Option KimiTokenUsage
deriving Repr, DecidableEq

/-- The nested `message` object. -/
structure KimiMessage where
  type : String
  payload : Option KimiPayload
deriving Repr, DecidableEq

/-- One successfully unmarshalled `kimiWireEntry`. -/
structure KimiEntry where
  timestamp : Int
  message : Option KimiMessage
deriving Repr, DecidableEq

/-- One raw Kimi wire line. -/
inductive KimiLine
  | malformed
  | entry (e : KimiEntry)
deriving Repr, DecidableEq

/-- Qualification shared by both Kimi scanners: a `StatusUpdate` message
with a non-nil payload and token usage. -/
def kimiQualify : KimiLine → Option (KimiTokenUsage × Int)
  | .malformed => none
  | .entry e =>
    match e.message with
    | none => none
    | some m =>
      if m.type ≠ "StatusUpdate" then none
      else match m.payload with
        | none => none
        | some p =>
          match p.token_usage with
          | none => none
          | some u => some (u, e.timestamp)

/-- One loop iteration of `scanKimiWireFile`: positive timestamps are
window-checked per line (`if entry.Timestamp > 0 { if ts.Before(since)
{ continue } }`); a non-positive timestamp skips the check and the record is
still retained. -/
def kimiKeepLast (since : Int) (acc : Option KimiTokenUsage) (l : KimiLine) :
    Option KimiTokenUsage :=
  match kimiQualify l with
  | none => acc
  | some (u, t) => if 0 < t ∧ t < since then acc else some u

/-- `lastUsage` kept by the loop of `scanKimiWireFile`. -/
def kimiLast (since : Int) (lines : List KimiLine) : Option KimiTokenUsage :=
  lines.foldl (kimiKeepLast since) none

/-- `scanKimiWireFile(path, since, stats *TokenStats)`: the last retained
snapshot is the whole file's contribution. -/
def scanKimiWireFile (since : Int) (lines : List KimiLine)
    (stats : TokenStats) : TokenStats :=
  match kimiLast since lines with
  | none => stats
  | some u =>
    ⟨stats.InputTokens + u.input_other,
     stats.OutputTokens + u.output,
     stats.CacheCreation + u.input_cache_creation,
     stats.CacheRead + u.input_cache_read⟩

/-- One loop iteration of `scanKimiWireFileByDay`: non-positive timestamps
are skipped and the closed-open window check is applied per line before
updating `lastUsage`/`lastDay`. -/
def kimiKeepLastByDay (since untilT : Int) (day : Int → Nat)
    (acc : Option (KimiTokenUsage × Nat)) (l : KimiLine) :
    Option (KimiTokenUsage × Nat) :=
  match kimiQualify l with
  | none => acc
  | some (u, t) =>
    if t ≤ 0 then acc
    else if t < since ∨ ¬ t < untilT then acc
    else some (u, day t)

/-- Loop of `scanKimiWireFileByDay`. -/
def kimiLastByDay (since untilT : Int) (day : Int → Nat)
    (lines : List KimiLine) : Option (KimiTokenUsage × Nat) :=
  lines.foldl (kimiKeepLastByDay since untilT day) none

/-- `scanKimiWireFileByDay(path, since, until, daily)`. -/
def scanKimiWireFileByDay (since untilT : Int) (day : Int → Nat)
    (lines : List KimiLine) (daily : DailyTokenStats) : DailyTokenStats :=
  match kimiLastByDay since untilT day lines with
  | none => daily
  | some (u, lastDay) =>
    fun d' =>
      if d' = lastDay then
        ⟨(daily lastDay).InputTokens + u.input_other,
         (daily lastDay).OutputTokens + u.output,
         (daily lastDay).CacheCreation + u.input_cache_creation,
         (daily lastDay).CacheRead + u.input_cache_read⟩
      else daily d'

/-! ## Directory walkers

`filepath.WalkDir` is modelled as a fold over the entries it would visit, in
visit order.  Each entry carries what the walk callbacks inspect:
`filepath.Ext(path)`, `filepath.Base(path)`, `d.IsDir()` and the
modification time (`d.Info()` is modelled as always succeeding).  The data
root itself is modelled by the resolved directory string (`""` when home
resolution failed) and an `exists` flag for the `os.Stat` probe. -/

/-- One entry visited by the walk, carrying the lines of the file. -/
structure DiskFile (L : Type) where
  ext : String
  base : String
  isDir : Bool
  modTime : Int
  lines : List L
deriving Repr

/-- The walk callback of `scanCodexTokens`: skip directories, non-`.jsonl`
files, and files last modified before the window. -/
def codexWalkStep (since : Int) (stats : TokenStats) (f : DiskFile CodexLine) :
    TokenStats :=
  if f.isDir ∨ f.ext ≠ ".jsonl" then stats
  else if f.modTime < since then stats
  else scanCodexFileTokens since f.lines stats

/-- `scanCodexTokens(since)`: empty resolved dir is an error; a data root
failing `os.Stat` returns zero stats and a nil error; otherwise every
candidate file is scanned.  The second component models the returned
`error` (`none` = nil). -/
def scanCodexTokens (dir : String) (rootExists : Bool)
    (files : List (DiskFile CodexLine)) (since : Int) :
    TokenStats × Option String :=
  if dir = "" then (TokenStats.zero, some "codex sessions directory not found")
  else if ¬ rootExists then (TokenStats.zero, none)
  else (files.foldl (codexWalkStep since) TokenStats.zero, none)

/-- The walk callback of `scanKimiTokens`: skip directories, files not
named `wire.jsonl`, and files last modified before the window. -/
def kimiWalkStep (since : Int) (stats : TokenStats) (f : DiskFile KimiLine) :
    TokenStats :=
  if f.isDir then stats
  else if f.base ≠ "wire.jsonl" then stats
  else if f.modTime < since then stats
  else scanKimiWireFile since f.lines stats

/-- `scanKimiTokens(since)`: same shape as `scanCodexTokens`, with
candidate files selected by `filepath.Base(path) == "wire.jsonl"`. -/
def scanKimiTokens (dir : String) (rootExists : Bool)
    (files : List (DiskFile KimiLine)) (since : Int) :
    TokenStats × Option String :=
  if dir = "" then (TokenStats.zero, some "kimi sessions directory not found")
  else if ¬ rootExists then (TokenStats.zero, none)
  else (files.foldl (kimiWalkStep since) TokenStats.zero, none)

/-- The walk callback of `scanCodexTokensByDay`. -/
def codexWalkStepByDay (since untilT : Int) (day : Int → Nat)
    (daily : DailyTokenStats) (f : DiskFile CodexLine) : DailyTokenStats :=
  if f.isDir ∨ f.ext ≠ ".jsonl" then daily
  else if f.modTime < since then daily
  else scanCodexFileTokensByDay since untilT day f.lines daily

/-- `scanCodexTokensByDay(year, month)`: the caller-side month bounds
`since`/`until` (start of month, start of next month in the local location)
are taken as parameters; an unresolved or missing root yields the empty
daily map, and the returned `error` is always nil. -/
def scanCodexTokensByDay (dir : String) (rootExists : Bool)
    (files : List (DiskFile CodexLine)) (since untilT : Int)
    (day : Int → Nat) : DailyTokenStats :=
  if dir = "" then emptyDaily
  else if ¬ rootExists then emptyDaily
  else files.foldl (codexWalkStepByDay since untilT day) emptyDaily

/-! ## Quota fetch (client.go)

Only the response handling of `fetchUsage` is embedded: the function is
taken at the point where the HTTP round-trip succeeded and the body (at most
`maxUsageResponseBytes+1` bytes of it) was read.  The payload type of the
final `json.Unmarshal` is irrelevant to the branching, so it is a type
parameter and the unmarshal outcome an `Option` argument. -/

/-- The distinct error values `fetchUsage` can produce after a successful
read; `apiError` carries the status code and body exactly as the generic
`"API error (HTTP %d): %s"` message does. -/
inductive FetchError
  | tooLarge
  | tokenExpired
  | apiError (status : Int) (body : String)
  | parseFailed
deriving Repr, DecidableEq

/-- `const maxUsageResponseBytes = 1 << 20`. -/
def maxUsageResponseBytes : Nat := 1048576

/-- Response handling of `fetchUsage`: oversized body, then status 401
(token expired), then any other non-200 status (generic API error), then
the unmarshal of the body. -/
def fetchUsage (U : Type) (status : Int) (body : String)
    (decoded : Option U) : Except FetchError U :=
  if body.length > maxUsageResponseBytes then .error .tooLarge
  else if status = 401 then .error .tokenExpired
  else if status ≠ 200 then .error (.apiError status body)
  else match decoded with
    | none => .error .parseFailed
    | some u => .ok u

/-! ## Concrete line builders and statement helpers -/

/-- A well-formed Claude `assistant` line with message id `i`, parsed
timestamp `t` and usage `u`. -/
def mkAssistantLine (i : String) (t : Int) (u : ClaudeUsage) : ClaudeLine :=
  .entry ⟨"assistant", some t, some ⟨i, some u⟩⟩

/-- A well-formed Codex `event_msg`/`token_count` line with timestamp field
`tsf` and total token usage `tu`. -/
def mkCodexTokenLine (tsf : TsField) (tu : CodexTokenUsage) : CodexLine :=
  .entry ⟨tsf, "event_msg", some (.parsed ⟨"token_count", some ⟨some tu⟩⟩)⟩

/-- A well-formed Kimi `StatusUpdate` line with timestamp `t` and token
usage `u`. -/
def mkKimiStatusLine (t : Int) (u : KimiTokenUsage) : KimiLine :=
  .entry ⟨t, some ⟨"StatusUpdate", some ⟨some u⟩⟩⟩

/-- Point update of a daily map: add `t` onto day `d` (the shape every
ByDay scanner's final write has). -/
def dailyAddTo (daily : DailyTokenStats) (d : Nat) (t : TokenStats) :
    DailyTokenStats :=
  fun d' =>
    if d' = d then
      ⟨(daily d).InputTokens + t.InputTokens,
       (daily d).OutputTokens + t.OutputTokens,
       (daily d).CacheCreation + t.CacheCreation,
       (daily d).CacheRead + t.CacheRead⟩
    else daily d'

/-- A Claude line the scanners must ignore: malformed JSON (which includes
an empty line) or an event type other than the usage-bearing
`"assistant"`. -/
def claudeIrrelevant : ClaudeLine → Prop
  | .malformed => True
  | .entry e => e.type ≠ "assistant"

/-- A Codex line the scanners must ignore: malformed JSON, an outer type
other than `"event_msg"`, or a payload whose type is not the usage-bearing
`"token_count"`. -/
def codexIrrelevant : CodexLine → Prop
  | .malformed => True
  | .entry e =>
    e.type ≠ "event_msg" ∨
      ∃ p, e.payload = some (.parsed p) ∧ p.type ≠ "token_count"

/-! ## General lemmas -/

/-- A fold whose step fixes `acc` on every element of the list returns
`acc`. -/
theorem foldl_fixed_of_forall {α β : Type} (f : β → α → β) (l : List α)
    (acc : β) (h : ∀ x ∈ l, ∀ b : β, f b x = b) : l.foldl f acc = acc := by
  induction l generalizing acc with
  | nil => rfl
  | cons x t ih =>
    rw [List.foldl_cons, h x (by simp)]
    exact ih acc (fun y hy b => h y (by simp [hy]) b)

/-! ## Claim theorems -/

/-- C5: merging `TokenStats` (the component-wise addition written out in
`scanAllTokens`) is associative and commutative, and preserves
non-negativity of all four fields. -/
theorem tokenStats_merge_assoc_comm_nonneg (a b c : TokenStats) :
    TokenStats.merge (TokenStats.merge a b) c
        = TokenStats.merge a (TokenStats.merge b c) ∧
    TokenStats.merge a b = TokenStats.merge b a ∧
    (a.Nonneg → b.Nonneg → (TokenStats.merge a b).Nonneg) := by
  refine ⟨?_, ?_, ?_⟩
  · simp only [TokenStats.merge, TokenStats.mk.injEq]
    refine ⟨?_, ?_, ?_, ?_⟩ <;> ring
  · simp only [TokenStats.merge, TokenStats.mk.injEq]
    refine ⟨?_, ?_, ?_, ?_⟩ <;> ring
  · rintro ⟨h1, h2, h3, h4⟩ ⟨g1, g2, g3, g4⟩
    exact ⟨add_nonneg h1 g1, add_nonneg h2 g2, add_nonneg h3 g3,
      add_nonneg h4 g4⟩

/-- Witness for C5 at concrete stats. -/
theorem tokenStats_merge_assoc_comm_nonneg_witness :
    (TokenStats.merge ⟨1, 2, 3, 4⟩ ⟨5, 6, 7, 8⟩).Nonneg :=
  (tokenStats_merge_assoc_comm_nonneg ⟨1, 2, 3, 4⟩ ⟨5, 6, 7, 8⟩ ⟨0, 0, 0, 0⟩).2.2
    (by decide) (by decide)

/-- C7: for every window, a Codex or Kimi token scan whose resolved data
root fails the `os.Stat` probe returns zero stats and a nil error. -/
theorem missing_root_scans_zero (since : Int) (dirC dirK : String)
    (filesC : List (DiskFile CodexLine)) (filesK : List (DiskFile KimiLine))
    (hC : dirC ≠ "") (hK : dirK ≠ "") :
    scanCodexTokens dirC false filesC since = (TokenStats.zero, none) ∧
    scanKimiTokens dirK false filesK since = (TokenStats.zero, none) := by
  constructor
  · unfold scanCodexTokens
    rw [if_neg hC, if_pos (by simp)]
  · unfold scanKimiTokens
    rw [if_neg hK, if_pos (by simp)]

/-- Witness for C7 at a concrete resolved root and window. -/
theorem missing_root_scans_zero_witness :
    scanCodexTokens "/home/u/.codex/sessions" false [] 0
        = (TokenStats.zero, none) ∧
    scanKimiTokens "/home/u/.kimi/sessions" false [] 0
        = (TokenStats.zero, none) :=
  missing_root_scans_zero 0 "/home/u/.codex/sessions" "/home/u/.kimi/sessions"
    [] [] (by decide) (by decide)

/-- C8: on HTTP 401 (with a body within the size ceiling) `fetchUsage`
returns the distinct token-expired error, and on any other non-200 status
the generic API error carrying the status code and body. -/
theorem fetchUsage_status_branching (U : Type) (status : Int) (body : String)
    (decoded : Option U) (hlen : body.length ≤ maxUsageResponseBytes) :
    fetchUsage U 401 body decoded = .error .tokenExpired ∧
    (status ≠ 200 → status ≠ 401 →
      fetchUsage U status body decoded = .error (.apiError status body)) := by
  constructor
  · unfold fetchUsage
    rw [if_neg (by omega), if_pos rfl]
  · intro h200 h401
    unfold fetchUsage
    rw [if_neg (by omega), if_neg h401, if_pos h200]

theorem claudeDecode_eq_none (since : Int) (l : ClaudeLine)
    (h : claudeIrrelevant l) : claudeDecode since l = none := by
  cases l with
  | malformed => rfl
  | entry e =>
    simp only [claudeIrrelevant] at h
    simp [claudeDecode, h]

theorem claudeStep_eq_self (since : Int)
    (acc : List (String × ClaudeUsage) × List ClaudeUsage) (l : ClaudeLine)
    (h : claudeDecode since l = none) : claudeStep since acc l = acc := by
  simp [claudeStep, h]

theorem codexQualify_eq_none (l : CodexLine) (h : codexIrrelevant l) :
    codexQualify l = none := by
  cases l with
  | malformed => rfl
  | entry e =>
    simp only [codexIrrelevant] at h
    rcases h with h | ⟨p, hp, ht⟩
    · simp [codexQualify, h]
    · by_cases he : e.type = "event_msg"
      · simp [codexQualify, he, hp, ht]
      · simp [codexQualify, he]

theorem codexKeepLast_eq_self (acc : Option (CodexTokenInfo × TsField))
    (l : CodexLine) (h : codexQualify l = none) : codexKeepLast acc l = acc := by
  simp [codexKeepLast, h]

/-- C6: a malformed line (including an empty one) or a line whose event
type is not the provider's usage-bearing kind leaves the accumulated stats
of the Claude and Codex file scanners unchanged wherever it occurs; the
scanners are total functions (the Go loop bodies `continue` on every decode
failure and surface no error). -/
theorem irrelevant_lines_contribute_nothing (since : Int)
    (stats : TokenStats) :
    (∀ (pre post : List ClaudeLine) (l : ClaudeLine), claudeIrrelevant l →
      scanClaudeFileTokens since (pre ++ l :: post) stats
        = scanClaudeFileTokens since (pre ++ post) stats) ∧
    (∀ (pre post : List CodexLine) (l : CodexLine), codexIrrelevant l →
      scanCodexFileTokens since (pre ++ l :: post) stats
        = scanCodexFileTokens since (pre ++ post) stats) := by
  constructor
  · intro pre post l h
    have hacc : (pre ++ l :: post).foldl (claudeStep since) ([], [])
        = (pre ++ post).foldl (claudeStep since) ([], []) := by
      rw [List.foldl_append, List.foldl_append, List.foldl_cons,
        claudeStep_eq_self since _ l (claudeDecode_eq_none since l h)]
    unfold scanClaudeFileTokens
    rw [hacc]
  · intro pre post l h
    have hl : codexLast (pre ++ l :: post) = codexLast (pre ++ post) := by
      unfold codexLast
      rw [List.foldl_append, List.foldl_append, List.foldl_cons,
        codexKeepLast_eq_self _ l (codexQualify_eq_none l h)]
    unfold scanCodexFileTokens
    rw [hl]

/-- Witness for C6: a malformed line and an unrelated-type line inserted
after a counted line change nothing. -/
theorem irrelevant_lines_contribute_nothing_witness :
    scanClaudeFileTokens 0
        ([mkAssistantLine "m" 1 ⟨1, 2, 3, 4⟩] ++
          ClaudeLine.entry ⟨"user", some 1, none⟩ :: []) TokenStats.zero
      = scanClaudeFileTokens 0 ([mkAssistantLine "m" 1 ⟨1, 2, 3, 4⟩] ++ [])
          TokenStats.zero ∧
    scanCodexFileTokens 0 ([] ++ CodexLine.malformed :: []) TokenStats.zero
      = scanCodexFileTokens 0 ([] ++ []) TokenStats.zero :=
  ⟨(irrelevant_lines_contribute_nothing 0 TokenStats.zero).1
      [mkAssistantLine "m" 1 ⟨1, 2, 3, 4⟩] [] (.entry ⟨"user", some 1, none⟩)
      (by simp [claudeIrrelevant]),
   (irrelevant_lines_contribute_nothing 0 TokenStats.zero).2
      [] [] .malformed trivial⟩

/-- Witness for C8: status 401 and status 503 at a small concrete body. -/
theorem fetchUsage_status_branching_witness :
    fetchUsage Unit 401 "overloaded" none = .error .tokenExpired ∧
    fetchUsage Unit 503 "overloaded" none
        = .error (.apiError 503 "overloaded") :=
  ⟨(fetchUsage_status_branching Unit 0 "overloaded" none (by decide)).1,
   (fetchUsage_status_branching Unit 503 "overloaded" none (by decide)).2
     (by decide) (by decide)⟩

theorem claudeDecode_mkAssistant (since : Int) (i : String) (t : Int)
    (u : ClaudeUsage) (ht : ¬ t < since) :
    claudeDecode since (mkAssistantLine i t u) = some (i, u) := by
  simp [claudeDecode, mkAssistantLine, ht]

theorem claudeStep_mkAssistant (since : Int) (i : String) (hi : i ≠ "")
    (t : Int) (u : ClaudeUsage) (ht : ¬ t < since)
    (seen : List (String × ClaudeUsage)) (anon : List ClaudeUsage) :
    claudeStep since (seen, anon) (mkAssistantLine i t u)
      = (mapAssign seen i u, anon) := by
  simp only [claudeStep, claudeDecode_mkAssistant since i t u ht]
  simp [hi]

/-- Folding any run of `assistant` lines that share the in-window message
id `i` over a `seen` map holding only `i` keeps a single binding: the last
line's usage. -/
theorem claude_foldl_same_id (since : Int) (i : String) (hi : i ≠ "")
    (ps : List (Int × ClaudeUsage)) :
    ∀ (v : ClaudeUsage), (∀ p ∈ ps, ¬ p.1 < since) →
      (ps.map (fun p => mkAssistantLine i p.1 p.2)).foldl (claudeStep since)
          ([(i, v)], [])
        = ([(i, ps.foldl (fun _ p => p.2) v)], []) := by
  induction ps with
  | nil => intro v _; rfl
  | cons p t ih =>
    intro v hts
    simp only [List.map_cons, List.foldl_cons]
    rw [claudeStep_mkAssistant since i hi p.1 p.2 (hts p (by simp))]
    simp only [mapAssign, if_pos rfl]
    exact ih p.2 (fun q hq => hts q (by simp [hq]))

/-- The scenario file of C1: three streamed lines for message `"m1"` with
cumulative input 10, 25, 40, then one line for `"m2"` with input 5. -/
def c1ScenarioLines : List ClaudeLine :=
  [mkAssistantLine "m1" 1 ⟨10, 0, 0, 0⟩,
   mkAssistantLine "m1" 2 ⟨25, 0, 0, 0⟩,
   mkAssistantLine "m1" 3 ⟨40, 0, 0, 0⟩,
   mkAssistantLine "m2" 4 ⟨5, 0, 0, 0⟩]

/-- C1: scanning the scenario file since the epoch yields 45 input tokens
(40 + 5), not 80; and in general a file of N lines sharing one in-window
message id contributes exactly the last line's delta. -/
theorem claude_cumulative_dedup (since : Int) (i : String)
    (ps : List (Int × ClaudeUsage)) (p : Int × ClaudeUsage)
    (stats : TokenStats) (hi : i ≠ "")
    (hts : ∀ q ∈ ps ++ [p], ¬ q.1 < since) :
    (scanClaudeFileTokens 0 c1ScenarioLines TokenStats.zero).InputTokens = 45 ∧
    scanClaudeFileTokens since
        ((ps ++ [p]).map (fun q => mkAssistantLine i q.1 q.2)) stats
      = addClaudeUsage stats p.2 := by
  refine ⟨by decide, ?_⟩
  cases ps with
  | nil =>
    unfold scanClaudeFileTokens
    simp only [List.nil_append, List.map_cons, List.map_nil, List.foldl_cons,
      List.foldl_nil]
    rw [claudeStep_mkAssistant since i hi p.1 p.2 (hts p (by simp))]
    rfl
  | cons q t =>
    simp only [List.cons_append] at hts ⊢
    unfold scanClaudeFileTokens
    simp only [List.map_cons, List.foldl_cons]
    rw [claudeStep_mkAssistant since i hi q.1 q.2 (hts q (by simp))]
    have : mapAssign [] i q.2 = [(i, q.2)] := rfl
    rw [this,
      claude_foldl_same_id since i hi (t ++ [p]) q.2
        (fun r hr => hts r (List.mem_cons_of_mem q hr)),
      List.foldl_append]
    rfl

/-- Witness for C1: two lines for one message id, the second with the
larger usage winning. -/
theorem claude_cumulative_dedup_witness :
    (scanClaudeFileTokens 0 c1ScenarioLines TokenStats.zero).InputTokens = 45 ∧
    scanClaudeFileTokens 0
        (([((1 : Int), (⟨10, 0, 0, 0⟩ : ClaudeUsage))]
            ++ [((2 : Int), (⟨25, 1, 2, 3⟩ : ClaudeUsage))]).map
          (fun q => mkAssistantLine "m1" q.1 q.2)) TokenStats.zero
      = addClaudeUsage TokenStats.zero ⟨25, 1, 2, 3⟩ :=
  claude_cumulative_dedup 0 "m1" [(1, ⟨10, 0, 0, 0⟩)] (2, ⟨25, 1, 2, 3⟩)
    TokenStats.zero (by decide) (by decide)

/-- C3: within one file "last" is defined by line order, not by the parsed
timestamp: for two in-window records sharing message id `i`, the record on
the later line determines the kept usage, for every pair of timestamps —
in particular when the later line's timestamp `t2` is earlier than `t1`. -/
theorem claude_dedup_line_order (since : Int) (i : String)
    (t1 t2 : Int) (u1 u2 : ClaudeUsage) (stats : TokenStats) (hi : i ≠ "")
    (h1 : ¬ t1 < since) (h2 : ¬ t2 < since) :
    scanClaudeFileTokens since
        [mkAssistantLine i t1 u1, mkAssistantLine i t2 u2] stats
      = addClaudeUsage stats u2 := by
  unfold scanClaudeFileTokens
  simp only [List.foldl_cons, List.foldl_nil]
  rw [claudeStep_mkAssistant since i hi t1 u1 h1]
  have : mapAssign [] i u1 = [(i, u1)] := rfl
  rw [this, claudeStep_mkAssistant since i hi t2 u2 h2]
  simp only [mapAssign, if_pos rfl]
  rfl

/-- Witness for C3: the second line's timestamp (5) precedes the first
line's (10), yet the second line's usage is kept. -/
theorem claude_dedup_line_order_witness :
    scanClaudeFileTokens 0
        [mkAssistantLine "m1" 10 ⟨40, 0, 0, 0⟩,
         mkAssistantLine "m1" 5 ⟨25, 0, 0, 0⟩] TokenStats.zero
      = addClaudeUsage TokenStats.zero ⟨25, 0, 0, 0⟩ :=
  claude_dedup_line_order 0 "m1" 10 5 ⟨40, 0, 0, 0⟩ ⟨25, 0, 0, 0⟩
    TokenStats.zero (by decide) (by decide) (by decide)

/-- A fold whose step ignores its accumulator on the final element. -/
theorem foldl_overwrite {α β : Type} (f : β → α → β) (l : List α) (a : α)
    (acc : β) (h : ∀ b, f b a = f acc a) :
    (l ++ [a]).foldl f acc = f acc a := by
  rw [List.foldl_append, List.foldl_cons, List.foldl_nil, h]

theorem codexKeepLast_mk (acc : Option (CodexTokenInfo × TsField))
    (tsf : TsField) (tu : CodexTokenUsage) :
    codexKeepLast acc (mkCodexTokenLine tsf tu) = some (⟨some tu⟩, tsf) := by
  simp [codexKeepLast, codexQualify, mkCodexTokenLine]

theorem scanCodexFileTokens_eq_none (since : Int) (lines : List CodexLine)
    (stats : TokenStats) (h : codexLast lines = none) :
    scanCodexFileTokens since lines stats = stats := by
  unfold scanCodexFileTokens
  rw [h]

theorem scanCodexFileTokens_eq_some (since : Int) (lines : List CodexLine)
    (stats : TokenStats) (info : CodexTokenInfo) (tsf : TsField)
    (h : codexLast lines = some (info, tsf)) :
    scanCodexFileTokens since lines stats
      = if codexWindowSkip since tsf then stats
        else match info.total_token_usage with
          | none => stats
          | some tu => codexApplyUsage stats tu := by
  unfold scanCodexFileTokens
  rw [h]

/-- The scenario file of C2: two `token_count` snapshots,
`{input:100, cached:30}` then `{input:150, cached:50}`. -/
def c2ScenarioLines : List CodexLine :=
  [mkCodexTokenLine .empty ⟨100, 30, 0, 0, 0⟩,
   mkCodexTokenLine .empty ⟨150, 50, 0, 0, 0⟩]

/-- C2: the scenario file contributes inputTokens = 100 (150−50) and
cacheRead = 50, not a sum of both snapshots; and in general any file whose
last line is a qualifying `token_count` entry whose timestamp does not fall
before the window contributes exactly that entry's derived delta, whatever
came before. -/
theorem codex_last_snapshot_wins (since : Int) (ls : List CodexLine)
    (tsf : TsField) (tu : CodexTokenUsage) (stats : TokenStats)
    (hw : ¬ codexWindowSkip since tsf) :
    scanCodexFileTokens 0 c2ScenarioLines TokenStats.zero
        = ⟨100, 0, 0, 50⟩ ∧
    scanCodexFileTokens since (ls ++ [mkCodexTokenLine tsf tu]) stats
      = codexApplyUsage stats tu := by
  refine ⟨by decide, ?_⟩
  have hlast : codexLast (ls ++ [mkCodexTokenLine tsf tu])
      = some (⟨some tu⟩, tsf) := by
    unfold codexLast
    rw [foldl_overwrite (codexKeepLast) ls (mkCodexTokenLine tsf tu) none
        (fun b => by rw [codexKeepLast_mk, codexKeepLast_mk]),
      codexKeepLast_mk]
  rw [scanCodexFileTokens_eq_some since _ stats ⟨some tu⟩ tsf hlast,
    if_neg hw]

/-- Witness for C2: the scenario's first snapshot precedes a second one and
is not summed in. -/
theorem codex_last_snapshot_wins_witness :
    scanCodexFileTokens 0 c2ScenarioLines TokenStats.zero
        = ⟨100, 0, 0, 50⟩ ∧
    scanCodexFileTokens 0
        ([mkCodexTokenLine .empty ⟨100, 30, 0, 0, 0⟩]
          ++ [mkCodexTokenLine .empty ⟨150, 50, 0, 0, 0⟩]) TokenStats.zero
      = codexApplyUsage TokenStats.zero ⟨150, 50, 0, 0, 0⟩ :=
  codex_last_snapshot_wins 0 [mkCodexTokenLine .empty ⟨100, 30, 0, 0, 0⟩]
    .empty ⟨150, 50, 0, 0, 0⟩ TokenStats.zero (by decide)

theorem scanCodexFileTokens_cacheCreation (since : Int)
    (lines : List CodexLine) (stats : TokenStats) :
    (scanCodexFileTokens since lines stats).CacheCreation
      = stats.CacheCreation := by
  rcases h : codexLast lines with _ | ⟨info, tsf⟩
  · rw [scanCodexFileTokens_eq_none since lines stats h]
  · rw [scanCodexFileTokens_eq_some since lines stats info tsf h]
    by_cases hw : codexWindowSkip since tsf
    · rw [if_pos hw]
    · rw [if_neg hw]
      rcases info with ⟨_ | tu⟩
      · rfl
      · rfl

theorem codexWalk_cacheCreation (since : Int)
    (files : List (DiskFile CodexLine)) :
    ∀ stats : TokenStats,
      (files.foldl (codexWalkStep since) stats).CacheCreation
        = stats.CacheCreation := by
  induction files with
  | nil => intro stats; rfl
  | cons f t ih =>
    intro stats
    rw [List.foldl_cons, ih]
    unfold codexWalkStep
    split
    · rfl
    · split
      · rfl
      · exact scanCodexFileTokens_cacheCreation since f.lines stats

theorem scanCodexFileTokensByDay_eq_none (since untilT : Int)
    (day : Int → Nat) (lines : List CodexLine) (daily : DailyTokenStats)
    (h : codexLastByDay lines = none) :
    scanCodexFileTokensByDay since untilT day lines daily = daily := by
  unfold scanCodexFileTokensByDay
  rw [h]

theorem scanCodexFileTokensByDay_eq_some (since untilT : Int)
    (day : Int → Nat) (lines : List CodexLine) (daily : DailyTokenStats)
    (info : CodexTokenInfo) (lastTS : Int)
    (h : codexLastByDay lines = some (info, lastTS)) :
    scanCodexFileTokensByDay since untilT day lines daily
      = if lastTS < since ∨ ¬ lastTS < untilT then daily
        else match info.total_token_usage with
          | none => daily
          | some tu =>
            fun d' =>
              if d' = day lastTS then
                ⟨(daily (day lastTS)).InputTokens +
                   (if tu.input_tokens - tu.cached_input_tokens < 0 then 0
                    else tu.input_tokens - tu.cached_input_tokens),
                 (daily (day lastTS)).OutputTokens + tu.output_tokens,
                 (daily (day lastTS)).CacheCreation,
                 (daily (day lastTS)).CacheRead + tu.cached_input_tokens⟩
              else daily d' := by
  unfold scanCodexFileTokensByDay
  rw [h]

theorem scanCodexFileTokensByDay_cacheCreation (since untilT : Int)
    (day : Int → Nat) (lines : List CodexLine) (daily : DailyTokenStats)
    (d : Nat) :
    (scanCodexFileTokensByDay since untilT day lines daily d).CacheCreation
      = (daily d).CacheCreation := by
  rcases h : codexLastByDay lines with _ | ⟨info, lastTS⟩
  · rw [scanCodexFileTokensByDay_eq_none since untilT day lines daily h]
  · rw [scanCodexFileTokensByDay_eq_some since untilT day lines daily info
      lastTS h]
    by_cases hwin : lastTS < since ∨ ¬ lastTS < untilT
    · rw [if_pos hwin]
    · rw [if_neg hwin]
      rcases info with ⟨_ | tu⟩
      · rfl
      · by_cases hd : d = day lastTS
        · simp only [if_pos hd, hd, if_true]
        · simp only [if_neg hd]

theorem codexWalkByDay_cacheCreation (since untilT : Int) (day : Int → Nat)
    (files : List (DiskFile CodexLine)) :
    ∀ (daily : DailyTokenStats) (d : Nat),
      (files.foldl (codexWalkStepByDay since untilT day) daily d).CacheCreation
        = (daily d).CacheCreation := by
  induction files with
  | nil => intro daily d; rfl
  | cons f t ih =>
    intro daily d
    rw [List.foldl_cons, ih]
    unfold codexWalkStepByDay
    split
    · rfl
    · split
      · rfl
      · exact scanCodexFileTokensByDay_cacheCreation since untilT day
          f.lines daily d

theorem claudeDecodeByDay_in (since untilT : Int) (day : Int → Nat)
    (i : String) (t : Int) (u : ClaudeUsage) (h1 : ¬ t < since)
    (h2 : t < untilT) :
    claudeDecodeByDay since untilT day (mkAssistantLine i t u)
      = some (i, u, day t) := by
  simp [claudeDecodeByDay, mkAssistantLine, h1, h2]

theorem claudeDecodeByDay_out (since untilT : Int) (day : Int → Nat)
    (i : String) (t : Int) (u : ClaudeUsage) (h : t < since ∨ ¬ t < untilT) :
    claudeDecodeByDay since untilT day (mkAssistantLine i t u) = none := by
  rcases h with h | h <;> simp [claudeDecodeByDay, mkAssistantLine, h]

theorem kimiQualify_mk (t : Int) (u : KimiTokenUsage) :
    kimiQualify (mkKimiStatusLine t u) = some (u, t) := by
  simp [kimiQualify, mkKimiStatusLine]

theorem codexQualifyByDay_mk (t : Int) (tu : CodexTokenUsage) :
    codexQualifyByDay (mkCodexTokenLine (.ok t) tu)
      = some (⟨some tu⟩, t) := by
  simp [codexQualifyByDay, mkCodexTokenLine]

/-- C4: calendar scans use a closed-open window.  For each of the three
ByDay scanners, a single-record file timestamped exactly at the month start
`since` is counted, and one timestamped exactly at the next-month start
`until` contributes nothing.  (`0 < since` reflects that every real month
start is after the epoch; the Kimi decoder treats non-positive raw
timestamps as absent.) -/
theorem calendar_window_closed_open (since untilT : Int) (day : Int → Nat)
    (daily : DailyTokenStats) (i : String) (u : ClaudeUsage)
    (ku : KimiTokenUsage) (tu : CodexTokenUsage)
    (hsu : since < untilT) (hpos : 0 < since) :
    scanClaudeFileTokensByDay since untilT day [mkAssistantLine i since u]
        daily
      = dailyAddClaude daily (u, day since) ∧
    scanClaudeFileTokensByDay since untilT day [mkAssistantLine i untilT u]
        daily
      = daily ∧
    scanKimiWireFileByDay since untilT day [mkKimiStatusLine since ku] daily
      = dailyAddTo daily (day since)
          ⟨ku.input_other, ku.output, ku.input_cache_creation,
           ku.input_cache_read⟩ ∧
    scanKimiWireFileByDay since untilT day [mkKimiStatusLine untilT ku] daily
      = daily ∧
    scanCodexFileTokensByDay since untilT day
        [mkCodexTokenLine (.ok since) tu] daily
      = dailyAddTo daily (day since)
          ⟨(if tu.input_tokens - tu.cached_input_tokens < 0 then 0
            else tu.input_tokens - tu.cached_input_tokens),
           tu.output_tokens, 0, tu.cached_input_tokens⟩ ∧
    scanCodexFileTokensByDay since untilT day
        [mkCodexTokenLine (.ok untilT) tu] daily
      = daily := by
  refine ⟨?_, ?_, ?_, ?_, ?_, ?_⟩
  · unfold scanClaudeFileTokensByDay
    simp only [List.foldl_cons, List.foldl_nil, claudeStepByDay,
      claudeDecodeByDay_in since untilT day i since u (lt_irrefl since) hsu]
    by_cases hi : i = ""
    · rw [if_pos hi]; rfl
    · rw [if_neg hi]; rfl
  · unfold scanClaudeFileTokensByDay
    simp only [List.foldl_cons, List.foldl_nil, claudeStepByDay,
      claudeDecodeByDay_out since untilT day i untilT u
        (Or.inr (lt_irrefl untilT))]
    rfl
  · have hlast : kimiLastByDay since untilT day [mkKimiStatusLine since ku]
        = some (ku, day since) := by
      unfold kimiLastByDay
      simp only [List.foldl_cons, List.foldl_nil, kimiKeepLastByDay,
        kimiQualify_mk]
      rw [if_neg (by omega), if_neg (by simp [lt_irrefl, hsu])]
    unfold scanKimiWireFileByDay
    rw [hlast]
    rfl
  · have hlast : kimiLastByDay since untilT day [mkKimiStatusLine untilT ku]
        = none := by
      unfold kimiLastByDay
      simp only [List.foldl_cons, List.foldl_nil, kimiKeepLastByDay,
        kimiQualify_mk]
      by_cases h0 : untilT ≤ 0
      · rw [if_pos h0]
      · rw [if_neg h0, if_pos (Or.inr (lt_irrefl untilT))]
    unfold scanKimiWireFileByDay
    rw [hlast]
  · have hlast : codexLastByDay [mkCodexTokenLine (.ok since) tu]
        = some (⟨some tu⟩, since) := by
      unfold codexLastByDay
      simp only [List.foldl_cons, List.foldl_nil, codexKeepLastByDay,
        codexQualifyByDay_mk]
    rw [scanCodexFileTokensByDay_eq_some since untilT day _ daily
        ⟨some tu⟩ since hlast,
      if_neg (by omega)]
    funext d'
    by_cases hd : d' = day since
    · simp [dailyAddTo, hd]
    · simp [dailyAddTo, hd]
  · have hlast : codexLastByDay [mkCodexTokenLine (.ok untilT) tu]
        = some (⟨some tu⟩, untilT) := by
      unfold codexLastByDay
      simp only [List.foldl_cons, List.foldl_nil, codexKeepLastByDay,
        codexQualifyByDay_mk]
    rw [scanCodexFileTokensByDay_eq_some since untilT day _ daily
        ⟨some tu⟩ untilT hlast,
      if_pos (Or.inr (lt_irrefl untilT))]

/-- Witness for C4 at a concrete month window [100, 200). -/
theorem calendar_window_closed_open_witness :
    scanClaudeFileTokensByDay 100 200 Int.toNat
        [mkAssistantLine "m" 100 ⟨1, 2, 3, 4⟩] emptyDaily
      = dailyAddClaude emptyDaily (⟨1, 2, 3, 4⟩, Int.toNat 100) ∧
    scanClaudeFileTokensByDay 100 200 Int.toNat
        [mkAssistantLine "m" 200 ⟨1, 2, 3, 4⟩] emptyDaily
      = emptyDaily ∧
    scanKimiWireFileByDay 100 200 Int.toNat
        [mkKimiStatusLine 100 ⟨1, 2, 3, 4⟩] emptyDaily
      = dailyAddTo emptyDaily (Int.toNat 100) ⟨1, 2, 4, 3⟩ ∧
    scanKimiWireFileByDay 100 200 Int.toNat
        [mkKimiStatusLine 200 ⟨1, 2, 3, 4⟩] emptyDaily
      = emptyDaily ∧
    scanCodexFileTokensByDay 100 200 Int.toNat
        [mkCodexTokenLine (.ok 100) ⟨10, 4, 2, 0, 0⟩] emptyDaily
      = dailyAddTo emptyDaily (Int.toNat 100) ⟨6, 2, 0, 4⟩ ∧
    scanCodexFileTokensByDay 100 200 Int.toNat
        [mkCodexTokenLine (.ok 200) ⟨10, 4, 2, 0, 0⟩] emptyDaily
      = emptyDaily := by
  have h := calendar_window_closed_open 100 200 Int.toNat emptyDaily "m"
    ⟨1, 2, 3, 4⟩ ⟨1, 2, 3, 4⟩ ⟨10, 4, 2, 0, 0⟩ (by decide) (by decide)
  simpa using h

theorem scanKimiWireFileByDay_eq_none (since untilT : Int) (day : Int → Nat)
    (lines : List KimiLine) (daily : DailyTokenStats)
    (h : kimiLastByDay since untilT day lines = none) :
    scanKimiWireFileByDay since untilT day lines daily = daily := by
  unfold scanKimiWireFileByDay
  rw [h]

theorem scanKimiWireFileByDay_eq_some (since untilT : Int) (day : Int → Nat)
    (lines : List KimiLine) (daily : DailyTokenStats) (u : KimiTokenUsage)
    (d0 : Nat) (h : kimiLastByDay since untilT day lines = some (u, d0)) :
    scanKimiWireFileByDay since untilT day lines daily
      = dailyAddTo daily d0
          ⟨u.input_other, u.output, u.input_cache_creation,
           u.input_cache_read⟩ := by
  unfold scanKimiWireFileByDay
  rw [h]
  rfl

theorem kimiKeepLastByDay_mk_in (since untilT : Int) (day : Int → Nat)
    (t : Int) (ku : KimiTokenUsage) (h0 : 0 < t) (h1 : ¬ t < since)
    (h2 : t < untilT) (acc : Option (KimiTokenUsage × Nat)) :
    kimiKeepLastByDay since untilT day acc (mkKimiStatusLine t ku)
      = some (ku, day t) := by
  simp only [kimiKeepLastByDay, kimiQualify_mk]
  rw [if_neg (by omega), if_neg (by omega)]

theorem codexKeepLastByDay_mk (t : Int) (tu : CodexTokenUsage)
    (acc : Option (CodexTokenInfo × Int)) :
    codexKeepLastByDay acc (mkCodexTokenLine (.ok t) tu)
      = some (⟨some tu⟩, t) := by
  simp only [codexKeepLastByDay, codexQualifyByDay_mk]

theorem codexKeepLastByDay_eq_self (acc : Option (CodexTokenInfo × Int))
    (l : CodexLine) (h : codexQualifyByDay l = none) :
    codexKeepLastByDay acc l = acc := by
  simp [codexKeepLastByDay, h]

/-- The `seen`/`anonymous` day-bucketed Codex update written out by
`scanCodexFileTokensByDay` agrees with `dailyAddTo` at the derived delta. -/
theorem codexByDay_update_eq (daily : DailyTokenStats) (day0 : Nat)
    (tu : CodexTokenUsage) :
    (fun d' =>
      if d' = day0 then
        (⟨(daily day0).InputTokens +
            (if tu.input_tokens - tu.cached_input_tokens < 0 then 0
             else tu.input_tokens - tu.cached_input_tokens),
          (daily day0).OutputTokens + tu.output_tokens,
          (daily day0).CacheCreation,
          (daily day0).CacheRead + tu.cached_input_tokens⟩ : TokenStats)
      else daily d')
      = dailyAddTo daily day0
          ⟨(if tu.input_tokens - tu.cached_input_tokens < 0 then 0
            else tu.input_tokens - tu.cached_input_tokens),
           tu.output_tokens, 0, tu.cached_input_tokens⟩ := by
  funext d'
  by_cases hd : d' = day0
  · simp [dailyAddTo, hd]
  · simp [dailyAddTo, hd]

/-- C9: every Codex token scan, windowed or calendar, yields stats whose
CacheCreation component is exactly zero — the Codex decoder never
contributes cache-creation tokens. -/
theorem codex_scans_no_cache_creation (dir : String) (rootExists : Bool)
    (filesW filesByDay : List (DiskFile CodexLine)) (since untilT : Int)
    (day : Int → Nat) :
    (scanCodexTokens dir rootExists filesW since).1.CacheCreation = 0 ∧
    ∀ d : Nat,
      (scanCodexTokensByDay dir rootExists filesByDay since untilT day
          d).CacheCreation = 0 := by
  constructor
  · unfold scanCodexTokens
    split
    · rfl
    · split
      · rfl
      · exact codexWalk_cacheCreation since filesW TokenStats.zero
  · intro d
    unfold scanCodexTokensByDay
    split
    · rfl
    · split
      · rfl
      · exact codexWalkByDay_cacheCreation since untilT day filesByDay
          emptyDaily d

/-- Counterexample to C10 (Codex half): in the month window [0, 100) with
`day = Int.toNat`, the file's last in-window qualifying entry is the
snapshot at instant 50 (day 50, derived input delta 7).  Alone it is
credited; but once a later qualifying entry at instant 150 (past the
window's end) follows, `scanCodexFileTokensByDay` window-checks only that
final entry and the whole file contributes nothing — day 50 stays zero
instead of being credited with the session total as the claim asserts. -/
theorem codexByDay_out_of_window_tail_counterexample :
    scanCodexFileTokensByDay 0 100 Int.toNat
        [mkCodexTokenLine (.ok 50) ⟨7, 0, 0, 0, 0⟩] emptyDaily 50
      = ⟨7, 0, 0, 0⟩ ∧
    scanCodexFileTokensByDay 0 100 Int.toNat
        [mkCodexTokenLine (.ok 50) ⟨7, 0, 0, 0, 0⟩,
         mkCodexTokenLine (.ok 150) ⟨9, 0, 0, 0, 0⟩] emptyDaily 50
      = TokenStats.zero ∧
    (TokenStats.zero : TokenStats) ≠ ⟨7, 0, 0, 0⟩ := by
  decide

/-- C10 as amended: in a calendar scan of a last-snapshot provider file at
most one day receives a contribution.  For Kimi it is the day of the last
in-window qualifying entry, credited with that entry's full cumulative
snapshot.  For Codex the file's chronologically last qualifying entry
(parseable timestamp) decides alone: in-window, its day is credited with
the full snapshot; out of window, the file contributes nothing even when
earlier in-window qualifying entries exist. -/
theorem lastSnapshot_byDay_attribution (since untilT : Int)
    (day : Int → Nat) (daily : DailyTokenStats) :
    (∀ lines : List KimiLine, ∃ d0 : Nat, ∀ d : Nat, d ≠ d0 →
      scanKimiWireFileByDay since untilT day lines daily d = daily d) ∧
    (∀ lines : List CodexLine, ∃ d0 : Nat, ∀ d : Nat, d ≠ d0 →
      scanCodexFileTokensByDay since untilT day lines daily d = daily d) ∧
    (∀ (ls ts : List KimiLine) (t : Int) (ku : KimiTokenUsage),
      (∀ l ∈ ts, ∀ acc, kimiKeepLastByDay since untilT day acc l = acc) →
      0 < t → ¬ t < since → t < untilT →
      scanKimiWireFileByDay since untilT day
          (ls ++ mkKimiStatusLine t ku :: ts) daily
        = dailyAddTo daily (day t)
            ⟨ku.input_other, ku.output, ku.input_cache_creation,
             ku.input_cache_read⟩) ∧
    (∀ (ls ts : List CodexLine) (t : Int) (tu : CodexTokenUsage),
      (∀ l ∈ ts, codexQualifyByDay l = none) →
      ¬ t < since → t < untilT →
      scanCodexFileTokensByDay since untilT day
          (ls ++ mkCodexTokenLine (.ok t) tu :: ts) daily
        = dailyAddTo daily (day t)
            ⟨(if tu.input_tokens - tu.cached_input_tokens < 0 then 0
              else tu.input_tokens - tu.cached_input_tokens),
             tu.output_tokens, 0, tu.cached_input_tokens⟩) ∧
    (∀ (ls ts : List CodexLine) (t : Int) (tu : CodexTokenUsage),
      (∀ l ∈ ts, codexQualifyByDay l = none) →
      (t < since ∨ ¬ t < untilT) →
      scanCodexFileTokensByDay since untilT day
          (ls ++ mkCodexTokenLine (.ok t) tu :: ts) daily = daily) := by
  refine ⟨?_, ?_, ?_, ?_, ?_⟩
  · intro lines
    rcases h : kimiLastByDay since untilT day lines with _ | ⟨u, d0⟩
    · exact ⟨0, fun d _ => by
        rw [scanKimiWireFileByDay_eq_none since untilT day lines daily h]⟩
    · refine ⟨d0, fun d hd => ?_⟩
      rw [scanKimiWireFileByDay_eq_some since untilT day lines daily u d0 h]
      simp [dailyAddTo, hd]
  · intro lines
    rcases h : codexLastByDay lines with _ | ⟨info, lastTS⟩
    · exact ⟨0, fun d _ => by
        rw [scanCodexFileTokensByDay_eq_none since untilT day lines daily h]⟩
    · refine ⟨day lastTS, fun d hd => ?_⟩
      rw [scanCodexFileTokensByDay_eq_some since untilT day lines daily info
        lastTS h]
      by_cases hwin : lastTS < since ∨ ¬ lastTS < untilT
      · rw [if_pos hwin]
      · rw [if_neg hwin]
        rcases info with ⟨_ | tu⟩
        · rfl
        · simp only [if_neg hd]
  · intro ls ts t ku hts h0 h1 h2
    have hlast : kimiLastByDay since untilT day
        (ls ++ mkKimiStatusLine t ku :: ts) = some (ku, day t) := by
      unfold kimiLastByDay
      rw [List.foldl_append, List.foldl_cons,
        kimiKeepLastByDay_mk_in since untilT day t ku h0 h1 h2,
        foldl_fixed_of_forall _ ts _ hts]
    rw [scanKimiWireFileByDay_eq_some since untilT day _ daily ku (day t)
      hlast]
  · intro ls ts t tu hts h1 h2
    have hlast : codexLastByDay (ls ++ mkCodexTokenLine (.ok t) tu :: ts)
        = some (⟨some tu⟩, t) := by
      unfold codexLastByDay
      rw [List.foldl_append, List.foldl_cons, codexKeepLastByDay_mk t tu,
        foldl_fixed_of_forall _ ts _
          (fun l hl acc => codexKeepLastByDay_eq_self acc l (hts l hl))]
    rw [scanCodexFileTokensByDay_eq_some since untilT day _ daily
      ⟨some tu⟩ t hlast, if_neg (by omega)]
    exact codexByDay_update_eq daily (day t) tu
  · intro ls ts t tu hts hwin
    have hlast : codexLastByDay (ls ++ mkCodexTokenLine (.ok t) tu :: ts)
        = some (⟨some tu⟩, t) := by
      unfold codexLastByDay
      rw [List.foldl_append, List.foldl_cons, codexKeepLastByDay_mk t tu,
        foldl_fixed_of_forall _ ts _
          (fun l hl acc => codexKeepLastByDay_eq_self acc l (hts l hl))]
    rw [scanCodexFileTokensByDay_eq_some since untilT day _ daily
      ⟨some tu⟩ t hlast, if_pos hwin]

/-- Witness for the amended C10: a Kimi file whose last (in-window) entry
overrides an earlier snapshot, and a Codex file whose trailing qualifying
entry lies past the window so the file contributes nothing. -/
theorem lastSnapshot_byDay_attribution_witness :
    scanKimiWireFileByDay 0 200 Int.toNat
        ([mkKimiStatusLine 150 ⟨1, 1, 1, 1⟩]
          ++ mkKimiStatusLine 160 ⟨5, 6, 7, 8⟩ :: []) emptyDaily
      = dailyAddTo emptyDaily (Int.toNat 160) ⟨5, 6, 8, 7⟩ ∧
    scanCodexFileTokensByDay 0 200 Int.toNat
        ([mkCodexTokenLine (.ok 50) ⟨7, 0, 0, 0, 0⟩]
          ++ mkCodexTokenLine (.ok 300) ⟨9, 0, 0, 0, 0⟩ :: []) emptyDaily
      = emptyDaily := by
  have h := lastSnapshot_byDay_attribution 0 200 Int.toNat emptyDaily
  exact ⟨by
      have h3 := h.2.2.1 [mkKimiStatusLine 150 ⟨1, 1, 1, 1⟩] []
        160 ⟨5, 6, 7, 8⟩ (by simp) (by decide) (by decide) (by decide)
      simpa using h3,
    h.2.2.2.2 [mkCodexTokenLine (.ok 50) ⟨7, 0, 0, 0, 0⟩] []
      300 ⟨9, 0, 0, 0, 0⟩ (by simp) (Or.inr (by decide))⟩

end LlmUsage
